import Mathlib

/-!
Shallow embedding of the Amazon review pipeline's cleaning layer
(`src/preprocessing/cleaner.py`) and NoSQL storage layer
(`src/storage/nosql_manager.py`), together with theorems settling the
frozen claims about them.

Python strings are modelled as `List Char`, Python ints and floats as `ℚ`,
dicts as association lists in insertion order, and raised exceptions as
`Option.none` (or an explicit raise flag where a whole query falls back to
an empty/default result through a `try/except` handler).
-/

/-- A Python value as it occurs in review records: a string (as `List Char`),
a number (ints and floats are both modelled as rationals), a list, or `None`. -/
inductive PyVal where
  | str (s : List Char)
  | num (q : ℚ)
  | list (l : List PyVal)
  | nullv

mutual

/-- Decidable equality on `PyVal` (written by hand because `deriving` does
not handle the nesting through `List`). -/
def PyVal.decEq : (a b : PyVal) → Decidable (a = b)
  | .str a, .str b =>
      if h : a = b then .isTrue (by rw [h])
      else .isFalse (by intro hc; injection hc; contradiction)
  | .num a, .num b =>
      if h : a = b then .isTrue (by rw [h])
      else .isFalse (by intro hc; injection hc; contradiction)
  | .list a, .list b =>
      match PyVal.decEqList a b with
      | .isTrue h => .isTrue (by rw [h])
      | .isFalse h => .isFalse (by intro hc; injection hc; contradiction)
  | .nullv, .nullv => .isTrue rfl
  | .str _, .num _ => .isFalse nofun
  | .str _, .list _ => .isFalse nofun
  | .str _, .nullv => .isFalse nofun
  | .num _, .str _ => .isFalse nofun
  | .num _, .list _ => .isFalse nofun
  | .num _, .nullv => .isFalse nofun
  | .list _, .str _ => .isFalse nofun
  | .list _, .num _ => .isFalse nofun
  | .list _, .nullv => .isFalse nofun
  | .nullv, .str _ => .isFalse nofun
  | .nullv, .num _ => .isFalse nofun
  | .nullv, .list _ => .isFalse nofun

/-- Decidable equality on lists of `PyVal`. -/
def PyVal.decEqList : (a b : List PyVal) → Decidable (a = b)
  | [], [] => .isTrue rfl
  | [], _ :: _ => .isFalse nofun
  | _ :: _, [] => .isFalse nofun
  | x :: xs, y :: ys =>
      match PyVal.decEq x y, PyVal.decEqList xs ys with
      | .isTrue h1, .isTrue h2 => .isTrue (by rw [h1, h2])
      | .isFalse h1, _ => .isFalse (by intro hc; injection hc; contradiction)
      | _, .isFalse h2 => .isFalse (by intro hc; injection hc; contradiction)

end

instance : DecidableEq PyVal := PyVal.decEq

/-- Python truthiness of a value (`bool(v)`): empty strings/lists, `0` and
`None` are falsy. -/
def pyTruthy : PyVal → Bool
  | .str s => !s.isEmpty
  | .num q => q != 0
  | .list l => !l.isEmpty
  | .nullv => false

/-- A Python dict with string keys, in insertion order. -/
abbrev Record := List (String × PyVal)

/-- Value of a key in a record (`r[k]` / `r.get(k)` without default). -/
def recGet : Record → String → Option PyVal
  | [], _ => Option.none
  | (k, v) :: r, key => if k = key then some v else recGet r key

/-- `r.get(key, d)`. -/
def recGetD (r : Record) (key : String) (d : PyVal) : PyVal :=
  (recGet r key).getD d

/-- Dict assignment `r[key] = v`: replaces the value in place if the key
exists, otherwise appends the new key at the end. -/
def recSet : Record → String → PyVal → Record
  | [], key, v => [(key, v)]
  | (k, w) :: r, key, v => if k = key then (k, v) :: r else (k, w) :: recSet r key v

/-- `key in r`. -/
def hasKey (r : Record) (key : String) : Bool :=
  (recGet r key).isSome

/-- Whether a column exists in `pd.DataFrame(records)`: some record has the key. -/
def hasCol (records : List Record) (key : String) : Bool :=
  records.any (hasKey · key)

/-- ASCII whitespace as stripped by Python `str.strip()` (the unicode
whitespace code points play no role in any claim). -/
def isPyWs (c : Char) : Bool :=
  c = ' ' || c = '\t' || c = '\n' || c = '\r' || c = '\x0b' || c = '\x0c'

/-- Drop leading whitespace. -/
def dropLead (l : List Char) : List Char := l.dropWhile isPyWs

/-- Drop trailing whitespace. -/
def dropTrail (l : List Char) : List Char := (l.reverse.dropWhile isPyWs).reverse

/-- Python `s.strip()`. -/
def stripChars (l : List Char) : List Char := dropTrail (dropLead l)

/-- ASCII decimal digit test. -/
def isDig (c : Char) : Bool := '0' ≤ c && c ≤ '9'

/-- Value of a digit string. -/
def digitsVal (l : List Char) : ℕ :=
  l.foldl (fun a c => 10 * a + (c.toNat - '0'.toNat)) 0

/-- Model of Python `float(str)` on the decimal forms
`[ws][sign]digits`, `[ws][sign]digits.digits`, `[ws][sign].digits` and
`[ws][sign]digits.`; exotic forms (exponents, `inf`, `nan`, underscores)
are treated as parse failures.  Every claim below is insensitive to this
corner: such inputs never yield an in-range rating that differs from the
fallback default. -/
def parseFloat (s : List Char) : Option ℚ :=
  let t := stripChars s
  let p : Int × List Char :=
    match t with
    | '+' :: r => (1, r)
    | '-' :: r => (-1, r)
    | r => (1, r)
  match p.2.findIdx? (· = '.') with
  | Option.none =>
      if !p.2.isEmpty && p.2.all isDig then some (mkRat (p.1 * digitsVal p.2) 1)
      else Option.none
  | some i =>
      let ip := p.2.take i
      let fp := p.2.drop (i + 1)
      if (!ip.isEmpty || !fp.isEmpty) && ip.all isDig && fp.all isDig then
        some (mkRat (p.1 * (digitsVal ip * 10 ^ fp.length + digitsVal fp)) (10 ^ fp.length))
      else Option.none

/-- Model of Python `int(str)`: optional surrounding whitespace, optional
sign, then decimal digits only. -/
def parseIntChars (s : List Char) : Option Int :=
  let t := stripChars s
  match t with
  | '+' :: u => if !u.isEmpty && u.all isDig then some (digitsVal u : Int) else Option.none
  | '-' :: u => if !u.isEmpty && u.all isDig then some (-(digitsVal u : Int)) else Option.none
  | u => if !u.isEmpty && u.all isDig then some (digitsVal u : Int) else Option.none

/-- Python `float(v)`, with `ValueError`/`TypeError` as `Option.none`. -/
def floatOf : PyVal → Option ℚ
  | .num q => some q
  | .str s => parseFloat s
  | _ => Option.none

/-- Python `int(v)` (truncation toward zero on floats), with
`ValueError`/`TypeError` as `Option.none`. -/
def intOf : PyVal → Option Int
  | .num q => some (Int.tdiv q.num (q.den : Int))
  | .str s => parseIntChars s
  | _ => Option.none

/-- The normalized review produced by `DataCleaner.clean_review_data`
(field names and order follow the source). -/
structure CleanedReview where
  reviewerID : List Char
  asin : PyVal
  reviewerName : List Char
  helpful : List PyVal
  reviewText : List Char
  overall : ℚ
  summary : List Char
  unixReviewTime : Int
  reviewTime : List Char
deriving DecidableEq

/-- The id/name pattern `x if x and x.strip() else default`.  A truthy
non-string raises `AttributeError` on `.strip()` (modelled as `none`). -/
def cleanId (v : PyVal) (dflt : List Char) : Option (List Char) :=
  match v with
  | .str s => some (if !(stripChars s).isEmpty then s else dflt)
  | w => if pyTruthy w then Option.none else some dflt

/-- The asin pattern `asin if asin else 'UNKNOWN'` (no `.strip()`, so any
truthy value is kept verbatim). -/
def cleanAsin (v : PyVal) : PyVal :=
  if pyTruthy v then v else .str "UNKNOWN".data

/-- The helpful pattern: a list of length at least 2 is truncated to its
first two elements, anything else becomes `[0, 0]`. -/
def cleanHelpful (v : PyVal) : List PyVal :=
  match v with
  | .list l => if 2 ≤ l.length then l.take 2 else [.num 0, .num 0]
  | _ => [.num 0, .num 0]

/-- The text pattern `s.strip()[:n]` for strings, `''` otherwise. -/
def cleanText (n : ℕ) (v : PyVal) : List Char :=
  match v with
  | .str s => (stripChars s).take n
  | _ => []

/-- The rating normalization: `float(overall)` kept when within `[1.0, 5.0]`,
everything else (parse failure or out of range) becomes `3.0`. -/
def cleanOverall (v : PyVal) : ℚ :=
  match floatOf v with
  | some q => if 1 ≤ q ∧ q ≤ 5 then q else 3
  | Option.none => 3

/-- The timestamp normalization: `int(v)`, defaulting to `0` on failure. -/
def cleanUnix (v : PyVal) : Int :=
  match intOf v with
  | some i => i
  | Option.none => 0

/-- The readable-date normalization: `s.strip()` for strings, `''` otherwise. -/
def cleanTime (v : PyVal) : List Char :=
  match v with
  | .str s => stripChars s
  | _ => []

/-- `DataCleaner.clean_review_data`: normalizes one raw record field by
field; `none` models the `AttributeError` raised when `reviewerID` or
`reviewerName` holds a truthy non-string. -/
def cleanReviewData (r : Record) : Option CleanedReview := do
  let rid ← cleanId (recGetD r "reviewerID" (.str "UNKNOWN".data)) "UNKNOWN".data
  let name ← cleanId (recGetD r "reviewerName" (.str "Anonymous".data)) "Anonymous".data
  pure
    { reviewerID := rid
      asin := cleanAsin (recGetD r "asin" (.str "UNKNOWN".data))
      reviewerName := name
      helpful := cleanHelpful (recGetD r "helpful" (.list [.num 0, .num 0]))
      reviewText := cleanText 1000 (recGetD r "reviewText" (.str []))
      overall := cleanOverall (recGetD r "overall" (.num 3))
      summary := cleanText 200 (recGetD r "summary" (.str []))
      unixReviewTime := cleanUnix (recGetD r "unixReviewTime" (.num 0))
      reviewTime := cleanTime (recGetD r "reviewTime" (.str [])) }

/-- `DataCleaner.validate_review_quality` as applied by `clean_batch` to an
already-cleaned record: required fields present and truthy, rating within
`[1.0, 5.0]`, and non-blank review text or summary. -/
def validateReviewQuality (d : CleanedReview) : Bool :=
  !d.reviewerID.isEmpty && pyTruthy d.asin && (d.overall != 0)
    && (decide ((1 : ℚ) ≤ d.overall) && decide (d.overall ≤ (5 : ℚ)))
    && (!(stripChars d.reviewText).isEmpty || !(stripChars d.summary).isEmpty)

/-- `DataCleaner.clean_batch`: cleans records in order keeping those that
validate; an exception in `clean_review_data` aborts the whole batch. -/
def cleanBatch : List Record → Option (List CleanedReview)
  | [] => some []
  | r :: rs =>
    match cleanReviewData r with
    | Option.none => Option.none
    | some c =>
      match cleanBatch rs with
      | Option.none => Option.none
      | some cs => some (if validateReviewQuality c then c :: cs else cs)

/-- The cleaned record viewed again as a raw Python dict, in the key
insertion order of `clean_review_data`. -/
def toRaw (d : CleanedReview) : Record :=
  [("reviewerID", .str d.reviewerID), ("asin", d.asin),
   ("reviewerName", .str d.reviewerName), ("helpful", .list d.helpful),
   ("reviewText", .str d.reviewText), ("overall", .num d.overall),
   ("summary", .str d.summary), ("unixReviewTime", .num (mkRat d.unixReviewTime 1)),
   ("reviewTime", .str d.reviewTime)]

/-! ### Storage layer (`nosql_manager.py`) -/

/-- The fixed TinyDB tables created by `NoSQLManager._init_tinydb`: the
umbrella partition, six category partitions and the metadata partition. -/
structure Store where
  reviews : List Record
  books : List Record
  video_games : List Record
  movies_tv : List Record
  home_kitchen : List Record
  tools : List Record
  patio_garden : List Record
  metadata : List Record
deriving DecidableEq

/-- The store right after initialization: every partition empty. -/
def emptyStore : Store := ⟨[], [], [], [], [], [], [], []⟩

/-- `name in self.tables`. -/
def isTableName (n : String) : Bool :=
  n = "reviews" || n = "books" || n = "video_games" || n = "movies_tv"
    || n = "home_kitchen" || n = "tools" || n = "patio_garden" || n = "metadata"

/-- `self.tables[name]` (only ever evaluated on known names; the catch-all
is unreachable in the source paths modelled here). -/
def Store.getTable (s : Store) : String → List Record
  | "reviews" => s.reviews
  | "books" => s.books
  | "video_games" => s.video_games
  | "movies_tv" => s.movies_tv
  | "home_kitchen" => s.home_kitchen
  | "tools" => s.tools
  | "patio_garden" => s.patio_garden
  | "metadata" => s.metadata
  | _ => []

/-- Replace the contents of a named table. -/
def Store.putTable (s : Store) (n : String) (docs : List Record) : Store :=
  match n with
  | "reviews" => { s with reviews := docs }
  | "books" => { s with books := docs }
  | "video_games" => { s with video_games := docs }
  | "movies_tv" => { s with movies_tv := docs }
  | "home_kitchen" => { s with home_kitchen := docs }
  | "tools" => { s with tools := docs }
  | "patio_garden" => { s with patio_garden := docs }
  | "metadata" => { s with metadata := docs }
  | _ => s

/-- `self.tables.get(name, self.tables['reviews'])`. -/
def Store.getTableOr (s : Store) (n : String) : List Record :=
  if isTableName n then s.getTable n else s.reviews

/-- `NoSQLManager._get_table_name`: known category names map to their
table, anything else falls back to the umbrella table `reviews`. -/
def getTableName (c : String) : String :=
  if c = "Books" then "books"
  else if c = "Video_Games" then "video_games"
  else if c = "Movies_and_TV" then "movies_tv"
  else if c = "Home_and_Kitchen" then "home_kitchen"
  else if c = "Tools_and_Home_Improvement" then "tools"
  else if c = "Patio_Lawn_and_Garden" then "patio_garden"
  else "reviews"

/-- Python `str(v)` as used inside the `db_id` f-string.  It is exact on
strings (the only case any claim evaluates); numeric and other reprs are
schematic stand-ins, since floats are modelled as rationals. -/
def pyStrOf : PyVal → List Char
  | .str s => s
  | .num q => if q.den = 1 then (toString q.num).data else (toString q).data
  | .list _ => "[...]".data
  | .nullv => "None".data

/-- The derived record key `reviewerID + "_" + asin` computed at insertion. -/
def dbId (r : Record) : List Char :=
  pyStrOf (recGetD r "reviewerID" (.str "unknown".data)) ++
    '_' :: pyStrOf (recGetD r "asin" (.str "unknown".data))

/-- One record as prepared by `insert_reviews`: a copy of the input plus
`inserted_at` (timestamp `t`) and the derived `db_id`. -/
def processRecord (t : List Char) (r : Record) : Record :=
  recSet (recSet r "inserted_at" (.str t)) "db_id" (.str (dbId r))

/-- `table.insert_multiple(docs)`: appends the documents to the table. -/
def insertMultiple (s : Store) (n : String) (docs : List Record) : Store :=
  s.putTable n (s.getTable n ++ docs)

/-- Python truthiness of the optional `category` argument (`if category:`). -/
def categoryTruthy : Option String → Bool
  | some c => c != ""
  | Option.none => false

/-- `NoSQLManager.insert_reviews`: an empty batch returns `False`; otherwise
the processed batch goes into the umbrella table `reviews` and, when a
truthy category is given, also into the table `_get_table_name` routes it
to (checked for membership in `self.tables` first).  The Boolean is the
source's return value. -/
def insertReviews (s : Store) (data : List Record) (category : Option String)
    (t : List Char) : Bool × Store :=
  if data.isEmpty then (false, s)
  else
    let processed := data.map (processRecord t)
    let s1 := insertMultiple s "reviews" processed
    if categoryTruthy category then
      let tn := getTableName (category.getD "")
      if isTableName tn then (true, insertMultiple s1 tn processed) else (true, s1)
    else (true, s1)

/-- A sequence of `insert_reviews` calls (batch, category, timestamp)
starting from the fresh store. -/
def runInserts (ops : List (List Record × Option String × List Char)) : Store :=
  ops.foldl (fun s op => (insertReviews s op.1 op.2.1 op.2.2).2) emptyStore

/-- Table selected by the query paths: a truthy category goes through
`_get_table_name` then `tables.get(..., tables['reviews'])`; otherwise the
umbrella table. -/
def selectTable (s : Store) (category : Option String) : List Record :=
  if categoryTruthy category then s.getTableOr (getTableName (category.getD ""))
  else s.reviews

/-- Whether evaluating `doc['overall'] >= x` on this document raises: the
key is present with a value not comparable to a float (TinyDB treats a
missing key as a non-match instead). -/
def cmpRaisesOverall (r : Record) : Bool :=
  match recGet r "overall" with
  | some (.str _) => true
  | some (.list _) => true
  | some .nullv => true
  | _ => false

/-- The TinyDB predicate `(overall >= mn) & (overall <= mx)` on one
document with a numeric (or absent) rating. -/
def overallMatches (r : Record) (mn mx : ℚ) : Bool :=
  match recGet r "overall" with
  | some (.num q) => decide (mn ≤ q) && decide (q ≤ mx)
  | _ => false

/-- `NoSQLManager.query_by_rating`: the `except` handler turns a comparison
`TypeError` anywhere in the scan into an empty result. -/
def queryByRating (s : Store) (mn mx : ℚ) (category : Option String) : List Record :=
  let table := selectTable s category
  if table.any cmpRaisesOverall then []
  else table.filter (fun r => overallMatches r mn mx)

/-- Stable insertion of `x` after every element not strictly greater
(numpy's small-array insertion sort). -/
def insertBy (lt : α → α → Bool) (x : α) : List α → List α
  | [] => [x]
  | y :: ys => if lt x y then x :: y :: ys else y :: insertBy lt x ys

/-- Stable ascending sort by a strict comparator. -/
def sortBy (lt : α → α → Bool) (l : List α) : List α :=
  l.foldl (fun acc x => insertBy lt x acc) []

/-- numpy's round-half-to-even at two decimal places (`.round(2)`),
computed on the exact rational: with `f = ⌊100q⌋` and remainder
`100q - f = rnum/d`, round down below the half, up above it, and to the
even neighbour at exactly the half. -/
def npRound2 (q : ℚ) : ℚ :=
  let n : Int := q.num * 100
  let d : Int := (q.den : Int)
  let f : Int := Int.fdiv n d
  let rnum : Int := n - f * d
  mkRat
    (if 2 * rnum < d then f
     else if d < 2 * rnum then f + 1
     else if f % 2 = 0 then f else f + 1) 100

/-- Numeric values of a column, skipping rows where the key is missing or
null (pandas NaN semantics). -/
def colNums (records : List Record) (key : String) : List ℚ :=
  records.filterMap (fun r =>
    match recGet r key with
    | some (.num q) => some q
    | _ => Option.none)

/-- Non-null values of a column (what `nunique` counts over). -/
def colPresent (records : List Record) (key : String) : List PyVal :=
  records.filterMap (fun r =>
    match recGet r key with
    | some v => if v = .nullv then Option.none else some v
    | Option.none => Option.none)

/-- Exact sum of a list of rationals, accumulated as a numerator and
denominator in integer arithmetic and normalized at the end (`Rat.add` is
irreducible, which would block evaluation on concrete stores). -/
def ratSum (xs : List ℚ) : ℚ :=
  let p : Int × Int :=
    xs.foldl (fun acc x => (acc.1 * (x.den : Int) + x.num * acc.2, acc.2 * (x.den : Int)))
      (0, 1)
  mkRat p.1 p.2.toNat

/-- Exact mean `sum / count` of a list of rationals. -/
def ratMean (xs : List ℚ) : ℚ :=
  mkRat (ratSum xs).num ((ratSum xs).den * xs.length)

/-- `Series.mean()`: `none` models NaN on an all-null column. -/
def meanOpt (xs : List ℚ) : Option ℚ :=
  if xs.isEmpty then Option.none else some (ratMean xs)

/-- `Series.min()` with NaN (`none`) on an all-null column. -/
def minOpt : List ℚ → Option ℚ
  | [] => Option.none
  | h :: t => some (t.foldl min h)

/-- `Series.max()` with NaN (`none`) on an all-null column. -/
def maxOpt : List ℚ → Option ℚ
  | [] => Option.none
  | h :: t => some (t.foldl max h)

/-- `Series.nunique()`: distinct non-null values. -/
def nuniqueCol (records : List Record) (key : String) : ℕ :=
  (colPresent records key).dedup.length

/-- `value_counts().sort_index()` over the numeric ratings. -/
def ratingDist (xs : List ℚ) : List (ℚ × ℕ) :=
  (sortBy (fun a b => decide (a < b)) xs.dedup).map (fun v => (v, xs.count v))

/-- One category's entry of `aggregate_by_category` (`none` in the rating
fields models a NaN statistic over an all-null column; a missing `overall`
column yields the source's literal `0`s and no distribution key). -/
structure AggData where
  count : ℕ
  avg_rating : Option ℚ
  min_rating : Option ℚ
  max_rating : Option ℚ
  unique_users : ℕ
  unique_products : ℕ
  rating_distribution : Option (List (ℚ × ℕ))
deriving DecidableEq

/-- The statistics computed for one non-empty category table. -/
def aggTable (records : List Record) : AggData :=
  let hasOv := hasCol records "overall"
  let ovs := colNums records "overall"
  { count := records.length
    avg_rating := if hasOv then meanOpt ovs else some 0
    min_rating := if hasOv then minOpt ovs else some 0
    max_rating := if hasOv then maxOpt ovs else some 0
    unique_users := if hasCol records "reviewerID" then nuniqueCol records "reviewerID" else 0
    unique_products := if hasCol records "asin" then nuniqueCol records "asin" else 0
    rating_distribution := if hasOv then some (ratingDist ovs) else Option.none }

/-- Whether `df['overall'].mean()` raises on this table: the column holds a
string or list value (object dtype over non-numeric data). -/
def colRaisesMean (records : List Record) : Bool :=
  records.any (fun r =>
    match recGet r "overall" with
    | some (.str _) => true
    | some (.list _) => true
    | _ => false)

/-- Whether `nunique` raises on this column: an unhashable (list) value. -/
def colUnhashable (records : List Record) (key : String) : Bool :=
  records.any (fun r =>
    match recGet r key with
    | some (.list _) => true
    | _ => false)

/-- Whether aggregating one table raises (caught at function level). -/
def tableAggRaises (records : List Record) : Bool :=
  (hasCol records "overall" && colRaisesMean records)
    || (hasCol records "reviewerID" && colUnhashable records "reviewerID")
    || (hasCol records "asin" && colUnhashable records "asin")

/-- The source's `category_mapping` of table names to display names, in
dict order. -/
def catPairs : List (String × String) :=
  [("books", "Books"), ("video_games", "Video Games"), ("movies_tv", "Movies & TV"),
   ("home_kitchen", "Home & Kitchen"), ("tools", "Tools & Home Improvement"),
   ("patio_garden", "Patio, Lawn & Garden")]

/-- Whether `aggregate_by_category` hits an exception in any category table
(the `except Exception` handler then returns the empty dict). -/
def aggRaises (s : Store) : Bool :=
  catPairs.any (fun p => isTableName p.1 && tableAggRaises (s.getTable p.1))

/-- `NoSQLManager.aggregate_by_category`: one entry per known, non-empty
category table, keyed by display name; an exception anywhere empties the
whole result. -/
def aggregateByCategory (s : Store) : List (String × AggData) :=
  if aggRaises s then []
  else
    catPairs.filterMap (fun p =>
      if isTableName p.1 && !(s.getTable p.1).isEmpty then
        some (p.2, aggTable (s.getTable p.1))
      else Option.none)

/-- One row of the `query_top_products` result
(`asin, avg_rating, review_count, sample_review`). -/
structure TopRow where
  asin : PyVal
  avg_rating : ℚ
  review_count : ℕ
  sample_review : Option PyVal
deriving DecidableEq

/-- String test on values. -/
def isStrV : PyVal → Bool
  | .str _ => true
  | _ => false

/-- Number test on values. -/
def isNumV : PyVal → Bool
  | .num _ => true
  | _ => false

/-- Distinct groupable `asin` keys: present, non-null scalar values
(pandas `groupby` drops null keys). -/
def rawKeys (records : List Record) : List PyVal :=
  ((records.filterMap (fun r => recGet r "asin")).filter
    (fun v => isStrV v || isNumV v)).dedup

/-- Numeric payload of a key (default irrelevant off the `num` case). -/
def keyNum : PyVal → ℚ
  | .num q => q
  | _ => 0

/-- String payload of a key. -/
def keyStr : PyVal → List Char
  | .str s => s
  | _ => []

/-- Lexicographic strict order on strings. -/
def lexLt : List Char → List Char → Bool
  | _, [] => false
  | [], _ :: _ => true
  | a :: as, b :: bs => if a < b then true else if b < a then false else lexLt as bs

/-- Group-key order produced by pandas (`safe_sort`, falling back to
`_sort_mixed`): numbers sorted first, then strings sorted. -/
def sortKeys (keys : List PyVal) : List PyVal :=
  sortBy (fun a b => decide (keyNum a < keyNum b)) (keys.filter isNumV)
    ++ sortBy (fun a b => lexLt (keyStr a) (keyStr b)) (keys.filter isStrV)

/-- The rows of one `asin` group. -/
def groupRows (records : List Record) (a : PyVal) : List Record :=
  records.filter (fun r => decide (recGet r "asin" = some a))

/-- The non-null numeric ratings of one group (what `mean`/`count` see). -/
def groupNums (records : List Record) (a : PyVal) : List ℚ :=
  (groupRows records a).filterMap (fun r =>
    match recGet r "overall" with
    | some (.num q) => some q
    | _ => Option.none)

/-- The group's `review_count` as pandas computes it. -/
def groupReviewCount (records : List Record) (a : PyVal) : ℕ :=
  (groupNums records a).length

/-- The `'first'` aggregation on `reviewText`: first non-null value. -/
def groupFirstText (records : List Record) (a : PyVal) : Option PyVal :=
  ((groupRows records a).filterMap (fun r =>
    match recGet r "reviewText" with
    | some v => if v = .nullv then Option.none else some v
    | Option.none => Option.none)).head?

/-- One row of the grouped/rounded product table. -/
def mkRow (records : List Record) (a : PyVal) : TopRow :=
  let nums := groupNums records a
  { asin := a
    avg_rating := if nums.isEmpty then 0 else npRound2 (ratMean nums)
    review_count := nums.length
    sample_review := groupFirstText records a }

/-- `df.groupby('asin').agg(...).round(2).reset_index()`: one row per
group key, in sorted key order. -/
def productTable (records : List Record) : List TopRow :=
  (sortKeys (rawKeys records)).map (mkRow records)

/-- Whether the grouped aggregation raises (unhashable key, non-numeric
rating under `mean`, or no `reviewText` column for the `'first'` spec);
the handler then returns the empty list. -/
def topRaises (records : List Record) : Bool :=
  records.any (fun r =>
    match recGet r "asin" with
    | some (.list _) => true
    | _ => false)
  || colRaisesMean records
  || !(hasCol records "reviewText")

/-- `NoSQLManager.query_top_products`: group by product, keep groups with
at least two counted ratings, sort descending by mean rating (pandas sorts
ascending with a stable kernel on small data, then reverses the order for
`ascending=False`), truncate to `limit`. -/
def queryTopProducts (s : Store) (category : Option String) (limit : ℕ) : List TopRow :=
  let records := selectTable s category
  if records.isEmpty then []
  else if !(hasCol records "asin") || !(hasCol records "overall") then []
  else if topRaises records then []
  else
    ((sortBy (fun x y => decide (x.avg_rating < y.avg_rating))
        ((productTable records).filter (fun row => decide (2 ≤ row.review_count)))).reverse).take
      limit

/-! ### Auxiliary predicates and concrete fixtures -/

/-- Head is absent or not whitespace. -/
def headNotWs : List Char → Bool
  | [] => true
  | c :: _ => !isPyWs c

/-- Last character is absent or not whitespace. -/
def lastNotWs (l : List Char) : Bool := headNotWs l.reverse

/-- The partition-duplication invariant of the spec: every document of a
category partition is present in the umbrella partition. -/
def catDup (s : Store) : Prop :=
  (∀ d ∈ s.books, d ∈ s.reviews) ∧ (∀ d ∈ s.video_games, d ∈ s.reviews)
    ∧ (∀ d ∈ s.movies_tv, d ∈ s.reviews) ∧ (∀ d ∈ s.home_kitchen, d ∈ s.reviews)
    ∧ (∀ d ∈ s.tools, d ∈ s.reviews) ∧ (∀ d ∈ s.patio_garden, d ∈ s.reviews)

/-- Stated from the spec's words for the aggregation-completeness claim:
the display names of exactly the non-empty category partitions, in the
fixed category order. -/
def specCategoryKeys (s : Store) : List String :=
  (catPairs.filter (fun p => !(s.getTable p.1).isEmpty)).map Prod.snd

/-- A review document literal used by concrete store fixtures. -/
def mkDoc (rid asin : String) (q : ℚ) (txt : String) : Record :=
  [("reviewerID", PyVal.str rid.data), ("asin", PyVal.str asin.data),
   ("overall", PyVal.num q), ("reviewText", PyVal.str txt.data)]

/-- Fixture for the top-products exclusion witness: product A has two
ratings, product B only one. -/
def w3store : Store :=
  { emptyStore with
      reviews := [mkDoc "u1" "A" 5 "ta", mkDoc "u2" "A" 4 "ta2", mkDoc "u3" "B" 5 "tb"] }

/-- The row the top-products query produces for product A of `w3store`. -/
def w3rowA : TopRow :=
  { asin := .str "A".data, avg_rating := mkRat 9 2, review_count := 2,
    sample_review := some (.str "ta".data) }

/-- The row product B of `w3store` would have if it were ranked. -/
def w3rowB : TopRow :=
  { asin := .str "B".data, avg_rating := 5, review_count := 1,
    sample_review := some (.str "tb".data) }

/-- Fixture for the tie-order counterexample: the two reviews of product A
are encountered before the two reviews of product B, and both products
have the same mean rating. -/
def cex6store : Store :=
  { emptyStore with
      reviews := [mkDoc "u1" "A" 5 "ta", mkDoc "u2" "A" 5 "ta2",
                  mkDoc "u3" "B" 5 "tb", mkDoc "u4" "B" 5 "tb2"] }

/-- Fixture for the aggregation counterexample: a non-empty books partition
whose single document carries a non-numeric rating. -/
def cex5store : Store :=
  { emptyStore with books := [[("overall", PyVal.str "abc".data)]] }

/-- Fixture for the unknown-partition counterexample: one matching document
in the umbrella partition. -/
def cex4store : Store :=
  { emptyStore with reviews := [[("overall", PyVal.num 4)]] }

/-- Fixture for the aggregation witness: one well-typed book review. -/
def w5store : Store :=
  { emptyStore with books := [mkDoc "u1" "P1" 5 "nice"] }

/-- A raw record that carries only review text: both id fields are absent. -/
def cex7rec : Record := [("reviewText", PyVal.str "great".data)]

/-- The document `clean_review_data` produces for `cex7rec`. -/
def cex7doc : CleanedReview :=
  { reviewerID := "UNKNOWN".data, asin := .str "UNKNOWN".data,
    reviewerName := "Anonymous".data, helpful := [.num 0, .num 0],
    reviewText := "great".data, overall := 3, summary := [],
    unixReviewTime := 0, reviewTime := [] }

/-- A raw record whose summary strips to 201 characters, so truncation at
200 cuts directly after a space. -/
def cex8rec : Record :=
  [("summary", PyVal.str (List.replicate 199 'a' ++ [' ', 'b', 'b']))]

/-- A raw record carrying an out-of-range rating, for the rating-domain
witness. -/
def w1rec : Record := [("overall", PyVal.num 7), ("reviewText", PyVal.str "ok".data)]

/-- The document `clean_review_data` produces for `w1rec`. -/
def w1doc : CleanedReview :=
  { reviewerID := "UNKNOWN".data, asin := .str "UNKNOWN".data,
    reviewerName := "Anonymous".data, helpful := [.num 0, .num 0],
    reviewText := "ok".data, overall := 3, summary := [],
    unixReviewTime := 0, reviewTime := [] }

/-! ### Helper lemmas -/

theorem isEmpty_false_of_ne_nil {α : Type _} {l : List α} (h : l ≠ []) : l.isEmpty = false := by
  cases l with
  | nil => exact absurd rfl h
  | cons a t => rfl

theorem categoryTruthy_some {c : String} (h : c ≠ "") : categoryTruthy (some c) = true := by
  simp [categoryTruthy, h]

theorem insertReviews_fallback (s : Store) (data : List Record) (c : String) (t : List Char)
    (hd : data ≠ []) (hc : c ≠ "") (htn : getTableName c = "reviews") :
    (insertReviews s data (some c) t).2.reviews
        = s.reviews ++ data.map (processRecord t) ++ data.map (processRecord t)
      ∧ (insertReviews s data (some c) t).2.books = s.books
      ∧ (insertReviews s data (some c) t).2.video_games = s.video_games
      ∧ (insertReviews s data (some c) t).2.movies_tv = s.movies_tv
      ∧ (insertReviews s data (some c) t).2.home_kitchen = s.home_kitchen
      ∧ (insertReviews s data (some c) t).2.tools = s.tools
      ∧ (insertReviews s data (some c) t).2.patio_garden = s.patio_garden
      ∧ (insertReviews s data (some c) t).1 = true := by
  unfold insertReviews
  rw [isEmpty_false_of_ne_nil hd]
  rw [categoryTruthy_some hc]
  simp only [Option.getD_some, htn, Bool.false_eq_true, if_false, if_true]
  exact ⟨rfl, rfl, rfl, rfl, rfl, rfl, rfl, rfl⟩

theorem insertReviews_nonempty_true (s : Store) (data : List Record) (category : Option String)
    (t : List Char) (hd : data ≠ []) : (insertReviews s data category t).1 = true := by
  unfold insertReviews
  rw [isEmpty_false_of_ne_nil hd]
  simp only [Bool.false_eq_true, if_false]
  split
  · split <;> rfl
  · rfl

theorem selectTable_unknown (s : Store) (c : String) (h1 : getTableName c = "reviews")
    (h2 : c ≠ "") : selectTable s (some c) = s.reviews := by
  unfold selectTable
  rw [categoryTruthy_some h2]
  simp only [Option.getD_some, h1, if_true]
  rfl

/-- C9 counterexample: `insert_reviews` does not report a written count and
does not treat an empty batch as a non-error — it returns its failure value
`False` for the empty batch, and returns the same value (`True`) for a
two-document batch as for a one-document batch. -/
theorem c9_insert_return_counterexample :
    (insertReviews emptyStore [] (some "Books") "ts".data).1 = false
    ∧ (insertReviews emptyStore [mkDoc "u1" "P" 5 "x", mkDoc "u2" "P" 4 "y"]
          Option.none "ts".data).1
      = (insertReviews emptyStore [mkDoc "u1" "P" 5 "x"] Option.none "ts".data).1 :=
  ⟨rfl, rfl⟩

/-- C9 amended: `insert_reviews` returns a Boolean success flag, not a
count — `True` for every non-empty batch (no I/O failure arises in the
modelled cache path), and `False` for an empty batch, which it reports as
a failure. -/
theorem c9_insert_return_amended :
    (∀ (s : Store) (data : List Record) (category : Option String) (t : List Char),
        data ≠ [] → (insertReviews s data category t).1 = true)
    ∧ (∀ (s : Store) (category : Option String) (t : List Char),
        (insertReviews s [] category t).1 = false) := by
  refine ⟨fun s data category t hd => insertReviews_nonempty_true s data category t hd,
    fun s category t => rfl⟩

/-- C9 amended, witnessed at a concrete non-empty batch. -/
theorem c9_insert_return_amended_witness :
    (insertReviews emptyStore [mkDoc "u9" "P9" 5 "w"] Option.none "ts".data).1 = true :=
  c9_insert_return_amended.1 emptyStore [mkDoc "u9" "P9" 5 "w"] Option.none "ts".data
    (by decide)

/-- C10 counterexample: the empty string is a category name outside the six
known categories, but it is falsy, so the category branch is skipped and
each document lands in the umbrella partition exactly once, not twice. -/
theorem c10_unknown_category_counterexample :
    (insertReviews emptyStore [mkDoc "u1" "P" 5 "x"] (some "") "ts".data).2.reviews
      = [processRecord "ts".data (mkDoc "u1" "P" 5 "x")] := rfl

/-- C10 amended: for every non-empty batch and every truthy (non-empty)
category name outside the six known categories, each document is written to
the umbrella partition `reviews` twice — once by the unconditional insert
and once via the fallback routing of `_get_table_name` — and every
category-specific partition is left unchanged. -/
theorem c10_unknown_category_amended :
    ∀ (s : Store) (data : List Record) (c : String) (t : List Char),
      data ≠ [] → c ≠ "" → getTableName c = "reviews" →
      (insertReviews s data (some c) t).2.reviews
          = s.reviews ++ data.map (processRecord t) ++ data.map (processRecord t)
        ∧ (insertReviews s data (some c) t).2.books = s.books
        ∧ (insertReviews s data (some c) t).2.video_games = s.video_games
        ∧ (insertReviews s data (some c) t).2.movies_tv = s.movies_tv
        ∧ (insertReviews s data (some c) t).2.home_kitchen = s.home_kitchen
        ∧ (insertReviews s data (some c) t).2.tools = s.tools
        ∧ (insertReviews s data (some c) t).2.patio_garden = s.patio_garden := by
  intro s data c t hd hc htn
  obtain ⟨h1, h2, h3, h4, h5, h6, h7, _⟩ := insertReviews_fallback s data c t hd hc htn
  exact ⟨h1, h2, h3, h4, h5, h6, h7⟩

/-- C10 amended, witnessed at a one-document batch and the unknown truthy
category name `"zzz"`. -/
theorem c10_unknown_category_amended_witness :
    (insertReviews emptyStore [mkDoc "u1" "P" 5 "x"] (some "zzz") "ts".data).2.reviews
      = emptyStore.reviews ++ [mkDoc "u1" "P" 5 "x"].map (processRecord "ts".data)
          ++ [mkDoc "u1" "P" 5 "x"].map (processRecord "ts".data) :=
  (c10_unknown_category_amended emptyStore [mkDoc "u1" "P" 5 "x"] "zzz" "ts".data
    (by decide) (by decide) (by rfl)).1

/-- C4 counterexample: reading with an unrecognized category name is not
"treated as empty" — the read is routed to the umbrella partition, so it
returns that partition's matching documents. -/
theorem c4_unknown_partition_counterexample :
    queryByRating cex4store 1 5 (some "nonexistent") ≠ [] := by decide

/-- C4 amended: an unrecognized category name is never an error, but reads
are routed to the umbrella fallback partition (returning exactly what a
category-less read returns, empty only if the umbrella has no match), and
writes with a truthy unknown category name are routed to the fallback
partition as well. -/
theorem c4_unknown_partition_amended :
    ∀ (s : Store) (mn mx : ℚ) (c : String) (limit : ℕ) (data : List Record) (t : List Char),
      getTableName c = "reviews" → c ≠ "" →
      queryByRating s mn mx (some c) = queryByRating s mn mx Option.none
        ∧ queryTopProducts s (some c) limit = queryTopProducts s Option.none limit
        ∧ (data ≠ [] →
            (insertReviews s data (some c) t).2.reviews
                = s.reviews ++ data.map (processRecord t) ++ data.map (processRecord t)
              ∧ (insertReviews s data (some c) t).1 = true) := by
  intro s mn mx c limit data t h1 h2
  have hsel : selectTable s (some c) = s.reviews := selectTable_unknown s c h1 h2
  have hsel2 : selectTable s Option.none = s.reviews := rfl
  refine ⟨?_, ?_, ?_⟩
  · unfold queryByRating
    rw [hsel, hsel2]
  · unfold queryTopProducts
    rw [hsel, hsel2]
  · intro hd
    obtain ⟨hr, _, _, _, _, _, _, hb⟩ := insertReviews_fallback s data c t hd h2 h1
    exact ⟨hr, hb⟩

/-- C4 amended, witnessed at the concrete store with one umbrella document
and the unknown category name `"zzz"`. -/
theorem c4_unknown_partition_amended_witness :
    queryByRating cex4store 1 5 (some "zzz") = queryByRating cex4store 1 5 Option.none :=
  (c4_unknown_partition_amended cex4store 1 5 "zzz" 10 [] "ts".data (by rfl) (by decide)).1

theorem cleanOverall_range (v : PyVal) : 1 ≤ cleanOverall v ∧ cleanOverall v ≤ 5 := by
  unfold cleanOverall
  cases floatOf v with
  | none => exact ⟨by norm_num, by norm_num⟩
  | some q =>
    dsimp only
    by_cases h : 1 ≤ q ∧ q ≤ 5
    · rw [if_pos h]; exact h
    · rw [if_neg h]; exact ⟨by norm_num, by norm_num⟩

theorem cleanReviewData_some_iff {r : Record} {d : CleanedReview} :
    cleanReviewData r = some d ↔
      ∃ rid name,
        cleanId (recGetD r "reviewerID" (.str "UNKNOWN".data)) "UNKNOWN".data = some rid
          ∧ cleanId (recGetD r "reviewerName" (.str "Anonymous".data)) "Anonymous".data
              = some name
          ∧ d = { reviewerID := rid
                  asin := cleanAsin (recGetD r "asin" (.str "UNKNOWN".data))
                  reviewerName := name
                  helpful := cleanHelpful (recGetD r "helpful" (.list [.num 0, .num 0]))
                  reviewText := cleanText 1000 (recGetD r "reviewText" (.str []))
                  overall := cleanOverall (recGetD r "overall" (.num 3))
                  summary := cleanText 200 (recGetD r "summary" (.str []))
                  unixReviewTime := cleanUnix (recGetD r "unixReviewTime" (.num 0))
                  reviewTime := cleanTime (recGetD r "reviewTime" (.str [])) } := by
  unfold cleanReviewData
  cases h1 : cleanId (recGetD r "reviewerID" (.str "UNKNOWN".data)) "UNKNOWN".data with
  | none => simp [h1]
  | some rid =>
    cases h2 : cleanId (recGetD r "reviewerName" (.str "Anonymous".data)) "Anonymous".data with
    | none => simp [h1, h2]
    | some name => simp [h1, h2, eq_comm]

theorem overall_of_clean {r : Record} {d : CleanedReview} (h : cleanReviewData r = some d) :
    d.overall = cleanOverall (recGetD r "overall" (.num 3)) := by
  obtain ⟨rid, name, _, _, rfl⟩ := cleanReviewData_some_iff.mp h
  rfl

/-- C1: normalization clamps every rating into `[1.0, 5.0]` — a rating that
fails to parse becomes `3.0`, a parsed rating outside `[1.0, 5.0]` becomes
`3.0`, and consequently every document surviving the validated batch path
carries a rating within `[1.0, 5.0]`. -/
theorem c1_rating_domain :
    (∀ (r : Record) (d : CleanedReview), cleanReviewData r = some d →
        1 ≤ d.overall ∧ d.overall ≤ 5)
    ∧ (∀ (r : Record) (d : CleanedReview), cleanReviewData r = some d →
        floatOf (recGetD r "overall" (.num 3)) = Option.none → d.overall = 3)
    ∧ (∀ (r : Record) (d : CleanedReview) (q : ℚ), cleanReviewData r = some d →
        floatOf (recGetD r "overall" (.num 3)) = some q → ¬(1 ≤ q ∧ q ≤ 5) → d.overall = 3)
    ∧ (∀ (rs : List Record) (cs : List CleanedReview) (d : CleanedReview),
        cleanBatch rs = some cs → d ∈ cs → 1 ≤ d.overall ∧ d.overall ≤ 5) := by
  have hrange : ∀ (r : Record) (d : CleanedReview), cleanReviewData r = some d →
      1 ≤ d.overall ∧ d.overall ≤ 5 := by
    intro r d h
    rw [overall_of_clean h]
    exact cleanOverall_range _
  refine ⟨hrange, ?_, ?_, ?_⟩
  · intro r d h hf
    rw [overall_of_clean h]
    unfold cleanOverall
    rw [hf]
  · intro r d q h hf hq
    rw [overall_of_clean h]
    unfold cleanOverall
    rw [hf]
    dsimp only
    rw [if_neg hq]
  · intro rs
    induction rs with
    | nil =>
      intro cs d h hd
      injection h with h
      subst h
      exact absurd hd (List.not_mem_nil d)
    | cons r rs ih =>
      intro cs d h hd
      unfold cleanBatch at h
      cases hc : cleanReviewData r with
      | none => rw [hc] at h; cases h
      | some c =>
        rw [hc] at h
        cases hb : cleanBatch rs with
        | none => rw [hb] at h; cases h
        | some cs' =>
          rw [hb] at h
          injection h with h
          subst h
          by_cases hv : validateReviewQuality c
          · rw [if_pos hv] at hd
            rcases List.mem_cons.mp hd with rfl | hd
            · exact hrange r d hc
            · exact ih cs' d hb hd
          · rw [if_neg hv] at hd
            exact ih cs' d hb hd

/-- C1, witnessed at a record whose rating `7.0` is out of range: the
cleaned document carries the default rating `3.0`, inside `[1.0, 5.0]`. -/
theorem c1_rating_domain_witness :
    (1 ≤ w1doc.overall ∧ w1doc.overall ≤ 5) ∧ w1doc.overall = 3 :=
  ⟨c1_rating_domain.1 w1rec w1doc (by decide),
   c1_rating_domain.2.2.1 w1rec w1doc 7 (by decide) (by decide) (by decide)⟩

/-- C7 counterexample: a raw record lacking both `reviewerID` and `asin`
but carrying review text is NOT rejected — `clean_batch` keeps it, with
both ids replaced by the sentinel `UNKNOWN`. -/
theorem c7_missing_fields_counterexample :
    recGet cex7rec "reviewerID" = Option.none
      ∧ recGet cex7rec "asin" = Option.none
      ∧ cleanBatch [cex7rec] = some [cex7doc] :=
  ⟨rfl, rfl, by decide⟩

/-- C7 amended: a raw record lacking both `reviewerID` and `asin` is
normalized to the sentinel id `UNKNOWN` in both fields; it is kept by the
batch path exactly when it has non-blank review text or summary (the
required-field check always passes on the sentinels), and rejected only
when both content fields are blank. -/
theorem c7_missing_fields_amended :
    ∀ (r : Record) (d : CleanedReview),
      recGet r "reviewerID" = Option.none → recGet r "asin" = Option.none →
      cleanReviewData r = some d →
      d.reviewerID = "UNKNOWN".data ∧ d.asin = .str "UNKNOWN".data
        ∧ validateReviewQuality d
            = (!(stripChars d.reviewText).isEmpty || !(stripChars d.summary).isEmpty) := by
  intro r d h1 h2 h
  obtain ⟨rid, name, hrid, hname, rfl⟩ := cleanReviewData_some_iff.mp h
  have e1 : recGetD r "reviewerID" (.str "UNKNOWN".data) = .str "UNKNOWN".data := by
    unfold recGetD
    rw [h1]
    rfl
  rw [e1] at hrid
  rw [show cleanId (PyVal.str "UNKNOWN".data) "UNKNOWN".data = some "UNKNOWN".data
    from by decide] at hrid
  have hridv : rid = "UNKNOWN".data := (Option.some.inj hrid).symm
  subst hridv
  have e2 : recGetD r "asin" (.str "UNKNOWN".data) = .str "UNKNOWN".data := by
    unfold recGetD
    rw [h2]
    rfl
  refine ⟨rfl, ?_, ?_⟩
  · show cleanAsin (recGetD r "asin" (.str "UNKNOWN".data)) = .str "UNKNOWN".data
    rw [e2]
    decide
  · have hr := cleanOverall_range (recGetD r "overall" (.num 3))
    have h01 : cleanOverall (recGetD r "overall" (.num 3)) ≠ 0 :=
      ne_of_gt (lt_of_lt_of_le one_pos hr.1)
    have hasin : pyTruthy (cleanAsin (recGetD r "asin" (.str "UNKNOWN".data))) = true := by
      rw [e2]
      decide
    unfold validateReviewQuality
    simp [hasin, hr.1, hr.2, h01, bne_iff_ne]

/-- C7 amended, witnessed at the concrete record lacking both id fields. -/
theorem c7_missing_fields_amended_witness :
    cex7doc.reviewerID = "UNKNOWN".data ∧ cex7doc.asin = .str "UNKNOWN".data
      ∧ validateReviewQuality cex7doc
          = (!(stripChars cex7doc.reviewText).isEmpty
              || !(stripChars cex7doc.summary).isEmpty) :=
  c7_missing_fields_amended cex7rec cex7doc rfl rfl (by decide)

theorem mem_app_left_of {l rv : List Record} (P : List Record) (h : ∀ d ∈ l, d ∈ rv) :
    ∀ d ∈ l, d ∈ rv ++ P :=
  fun d hd => List.mem_append_left P (h d hd)

theorem mem_app_both {l rv : List Record} (P : List Record) (h : ∀ d ∈ l, d ∈ rv) :
    ∀ d ∈ l ++ P, d ∈ rv ++ P := by
  intro d hd
  rcases List.mem_append.mp hd with hx | hx
  · exact List.mem_append_left P (h d hx)
  · exact List.mem_append_right rv hx

theorem getTableName_cases (c : String) :
    getTableName c = "books" ∨ getTableName c = "video_games" ∨ getTableName c = "movies_tv"
      ∨ getTableName c = "home_kitchen" ∨ getTableName c = "tools"
      ∨ getTableName c = "patio_garden" ∨ getTableName c = "reviews" := by
  unfold getTableName
  split_ifs <;> simp

theorem catDup_insert (s : Store) (data : List Record) (category : Option String)
    (t : List Char) (h : catDup s) : catDup (insertReviews s data category t).2 := by
  obtain ⟨h1, h2, h3, h4, h5, h6⟩ := h
  unfold insertReviews
  cases hd : data.isEmpty with
  | true =>
    simp only [hd, if_true]
    exact ⟨h1, h2, h3, h4, h5, h6⟩
  | false =>
    simp only [hd, Bool.false_eq_true, if_false]
    cases hc : categoryTruthy category with
    | false =>
      simp only [hc, Bool.false_eq_true, if_false]
      exact ⟨mem_app_left_of _ h1, mem_app_left_of _ h2, mem_app_left_of _ h3,
        mem_app_left_of _ h4, mem_app_left_of _ h5, mem_app_left_of _ h6⟩
    | true =>
      simp only [hc, if_true]
      rcases getTableName_cases (category.getD "") with he | he | he | he | he | he | he <;>
        rw [he]
      · exact ⟨mem_app_both _ h1, mem_app_left_of _ h2, mem_app_left_of _ h3,
          mem_app_left_of _ h4, mem_app_left_of _ h5, mem_app_left_of _ h6⟩
      · exact ⟨mem_app_left_of _ h1, mem_app_both _ h2, mem_app_left_of _ h3,
          mem_app_left_of _ h4, mem_app_left_of _ h5, mem_app_left_of _ h6⟩
      · exact ⟨mem_app_left_of _ h1, mem_app_left_of _ h2, mem_app_both _ h3,
          mem_app_left_of _ h4, mem_app_left_of _ h5, mem_app_left_of _ h6⟩
      · exact ⟨mem_app_left_of _ h1, mem_app_left_of _ h2, mem_app_left_of _ h3,
          mem_app_both _ h4, mem_app_left_of _ h5, mem_app_left_of _ h6⟩
      · exact ⟨mem_app_left_of _ h1, mem_app_left_of _ h2, mem_app_left_of _ h3,
          mem_app_left_of _ h4, mem_app_both _ h5, mem_app_left_of _ h6⟩
      · exact ⟨mem_app_left_of _ h1, mem_app_left_of _ h2, mem_app_left_of _ h3,
          mem_app_left_of _ h4, mem_app_left_of _ h5, mem_app_both _ h6⟩
      · exact ⟨mem_app_left_of _ (mem_app_left_of _ h1), mem_app_left_of _ (mem_app_left_of _ h2),
          mem_app_left_of _ (mem_app_left_of _ h3), mem_app_left_of _ (mem_app_left_of _ h4),
          mem_app_left_of _ (mem_app_left_of _ h5), mem_app_left_of _ (mem_app_left_of _ h6)⟩

/-- C2: after any sequence of `insert_reviews` calls on a fresh store, with
any category arguments, every document present in a category partition is
also present (as the identical document, hence with the same `db_id` record
key) in the umbrella partition `reviews`. -/
theorem c2_partition_duplication :
    ∀ ops : List (List Record × Option String × List Char), catDup (runInserts ops) := by
  intro ops
  have base : catDup emptyStore := by
    refine ⟨?_, ?_, ?_, ?_, ?_, ?_⟩ <;> intro d hd <;> exact absurd hd (List.not_mem_nil d)
  unfold runInserts
  suffices h : ∀ (l : List (List Record × Option String × List Char)) (s : Store), catDup s →
      catDup (l.foldl (fun s op => (insertReviews s op.1 op.2.1 op.2.2).2) s) by
    exact h ops emptyStore base
  intro l
  induction l with
  | nil => intro s hs; exact hs
  | cons op l ih =>
    intro s hs
    exact ih _ (catDup_insert s op.1 op.2.1 op.2.2 hs)

/-- C2, witnessed at a one-batch load into the `books` partition: the
processed document sits in `books` and the theorem places it in `reviews`. -/
theorem c2_partition_duplication_witness :
    processRecord "ts".data (mkDoc "u1" "P1" 5 "x")
      ∈ (runInserts [([mkDoc "u1" "P1" 5 "x"], some "Books", "ts".data)]).reviews :=
  (c2_partition_duplication [([mkDoc "u1" "P1" 5 "x"], some "Books", "ts".data)]).1
    (processRecord "ts".data (mkDoc "u1" "P1" 5 "x")) (by decide)

theorem mem_insertBy {α : Type _} {lt : α → α → Bool} {x y : α} {l : List α}
    (h : y ∈ insertBy lt x l) : y = x ∨ y ∈ l := by
  induction l with
  | nil =>
    simp [insertBy] at h
    exact Or.inl h
  | cons a l ih =>
    rw [insertBy] at h
    by_cases hx : lt x a = true
    · rw [if_pos hx] at h
      rcases List.mem_cons.mp h with rfl | h2
      · exact Or.inl rfl
      · exact Or.inr h2
    · rw [if_neg hx] at h
      rcases List.mem_cons.mp h with rfl | h2
      · exact Or.inr (List.mem_cons_self y l)
      · rcases ih h2 with h3 | h3
        · exact Or.inl h3
        · exact Or.inr (List.mem_cons_of_mem a h3)

theorem mem_sortBy {α : Type _} {lt : α → α → Bool} {y : α} {l : List α}
    (h : y ∈ sortBy lt l) : y ∈ l := by
  unfold sortBy at h
  suffices hgen : ∀ (l acc : List α), y ∈ l.foldl (fun acc x => insertBy lt x acc) acc →
      y ∈ acc ∨ y ∈ l by
    rcases hgen l [] h with h1 | h1
    · exact absurd h1 (List.not_mem_nil y)
    · exact h1
  intro l
  induction l with
  | nil =>
    intro acc h2
    exact Or.inl h2
  | cons a l ih =>
    intro acc h2
    rw [List.foldl_cons] at h2
    rcases ih _ h2 with h3 | h3
    · rcases mem_insertBy h3 with h4 | h4
      · exact Or.inr (by rw [h4]; exact List.mem_cons_self a l)
      · exact Or.inl h4
    · exact Or.inr (List.mem_cons_of_mem a h3)

theorem mem_productTable {records : List Record} {row : TopRow}
    (h : row ∈ productTable records) :
    row.review_count = groupReviewCount records row.asin := by
  unfold productTable at h
  rcases List.mem_map.mp h with ⟨a, ha, rfl⟩
  rfl

/-- C3: a product whose group contributes fewer than two counted ratings
never appears in the top-products output, regardless of its rating — every
emitted row carries `review_count ≥ 2`, and no emitted row can name a
product whose group count is at most one. -/
theorem c3_top_products_exclusion :
    (∀ (s : Store) (category : Option String) (limit : ℕ) (row : TopRow),
        row ∈ queryTopProducts s category limit → 2 ≤ row.review_count)
    ∧ (∀ (s : Store) (category : Option String) (limit : ℕ) (a : PyVal),
        groupReviewCount (selectTable s category) a ≤ 1 →
        ∀ row : TopRow, row ∈ queryTopProducts s category limit → row.asin ≠ a) := by
  have hmem : ∀ (s : Store) (category : Option String) (limit : ℕ) (row : TopRow),
      row ∈ queryTopProducts s category limit →
      2 ≤ row.review_count ∧ row ∈ productTable (selectTable s category) := by
    intro s category limit row h
    simp only [queryTopProducts] at h
    split at h
    · exact absurd h (List.not_mem_nil row)
    · split at h
      · exact absurd h (List.not_mem_nil row)
      · split at h
        · exact absurd h (List.not_mem_nil row)
        · have h1 := List.mem_of_mem_take h
          have h2 := List.mem_reverse.mp h1
          have h3 := mem_sortBy h2
          have h4 := List.mem_filter.mp h3
          exact ⟨by simpa using h4.2, h4.1⟩
  constructor
  · intro s category limit row h
    exact (hmem s category limit row h).1
  · intro s category limit a hcount row h heq
    have h5 := hmem s category limit row h
    have h6 : row.review_count = groupReviewCount (selectTable s category) row.asin :=
      mem_productTable h5.2
    rw [heq] at h6
    have h7 := h5.1
    rw [h6] at h7
    omega

/-- C3, witnessed at a store where product A has two ratings and product B
has exactly one: A's row is emitted with count 2, while B's would-be row is
provably absent. -/
theorem c3_top_products_exclusion_witness :
    2 ≤ w3rowA.review_count ∧ w3rowB ∉ queryTopProducts w3store Option.none 10 :=
  ⟨c3_top_products_exclusion.1 w3store Option.none 10 w3rowA (by decide),
   fun h => c3_top_products_exclusion.2 w3store Option.none 10 (.str "B".data) (by decide)
     w3rowB h rfl⟩

theorem pairwise_insertBy {α : Type _} (f : α → ℚ) {x : α} {l : List α}
    (h : l.Pairwise (fun a b => f a ≤ f b)) :
    (insertBy (fun a b => decide (f a < f b)) x l).Pairwise (fun a b => f a ≤ f b) := by
  induction l with
  | nil => simp [insertBy]
  | cons a l ih =>
    rw [insertBy]
    rcases List.pairwise_cons.mp h with ⟨hal, hl⟩
    by_cases hx : f x < f a
    · rw [if_pos (decide_eq_true hx)]
      refine List.Pairwise.cons ?_ h
      intro b hb
      rcases List.mem_cons.mp hb with rfl | hb2
      · exact le_of_lt hx
      · exact le_trans (le_of_lt hx) (hal b hb2)
    · rw [if_neg (fun hc => hx (of_decide_eq_true hc))]
      refine List.Pairwise.cons ?_ (ih hl)
      intro b hb
      rcases mem_insertBy hb with rfl | hb2
      · exact not_lt.mp hx
      · exact hal b hb2

theorem pairwise_sortBy {α : Type _} (f : α → ℚ) (l : List α) :
    (sortBy (fun a b => decide (f a < f b)) l).Pairwise (fun a b => f a ≤ f b) := by
  unfold sortBy
  suffices hgen : ∀ (l acc : List α), acc.Pairwise (fun a b => f a ≤ f b) →
      (l.foldl (fun acc x => insertBy (fun a b => decide (f a < f b)) x acc) acc).Pairwise
        (fun a b => f a ≤ f b) by
    exact hgen l [] List.Pairwise.nil
  intro l
  induction l with
  | nil =>
    intro acc h
    exact h
  | cons a l ih =>
    intro acc h
    rw [List.foldl_cons]
    exact ih _ (pairwise_insertBy f h)

/-- C6 counterexample: in `cex6store` both reviews of product A are
encountered before both reviews of product B and the two products share the
mean rating 5, yet the query emits B's row before A's — the tie is not
broken by the original encounter order. -/
theorem c6_tie_order_counterexample :
    (cex6store.reviews.map (fun r => recGet r "asin"))
        = [some (.str "A".data), some (.str "A".data),
           some (.str "B".data), some (.str "B".data)]
      ∧ (queryTopProducts cex6store Option.none 10).map TopRow.asin
          = [.str "B".data, .str "A".data] :=
  ⟨by decide, by decide⟩

/-- C6 amended: the top-products output is sorted non-strictly descending
by mean rating and truncated to at most `limit` rows; ties between equal
mean ratings are NOT in encounter order — `groupby` first rearranges
products in ascending product-id order and the descending sort then
reverses each equal-rating run (witnessed by the counterexample). -/
theorem c6_sorted_truncated_amended :
    ∀ (s : Store) (category : Option String) (limit : ℕ),
      (queryTopProducts s category limit).Pairwise
          (fun x y => y.avg_rating ≤ x.avg_rating)
        ∧ (queryTopProducts s category limit).length ≤ limit := by
  intro s category limit
  constructor
  · simp only [queryTopProducts]
    split
    · exact List.Pairwise.nil
    · split
      · exact List.Pairwise.nil
      · split
        · exact List.Pairwise.nil
        · refine List.Pairwise.sublist (List.take_sublist _ _) ?_
          rw [List.pairwise_reverse]
          exact pairwise_sortBy TopRow.avg_rating _
  · simp only [queryTopProducts]
    split
    · simp
    · split
      · simp
      · split
        · simp
        · exact List.length_take_le _ _

theorem filterMap_if_map_fst {β : Type _} (l : List (String × String))
    (c : String × String → Bool) (g : String × String → β) :
    (l.filterMap (fun p => if c p then some (p.2, g p) else Option.none)).map Prod.fst
      = (l.filter c).map Prod.snd := by
  induction l with
  | nil => rfl
  | cons p l ih =>
    by_cases h : c p
    · simp [List.filterMap_cons, List.filter_cons, h, ih]
    · simp [List.filterMap_cons, List.filter_cons, h, ih]

/-- C5 counterexample: a store whose books partition is non-empty but holds
a document with the string rating `"abc"` makes the whole aggregation
return the empty dict through the exception handler, so the key set is not
the set of non-empty category partitions. -/
theorem c5_aggregation_counterexample :
    aggregateByCategory cex5store = [] ∧ cex5store.books ≠ [] :=
  ⟨by decide, by decide⟩

/-- C5 amended: on every store in which no category table triggers the
aggregation's exception path (every present rating numeric or null, every
reviewer/product id hashable), the keys of `aggregate_by_category` are
exactly the display names of the non-empty category partitions, in the
fixed category order; a poisoned store instead yields the empty dict. -/
theorem c5_aggregation_amended :
    ∀ s : Store, aggRaises s = false →
      (aggregateByCategory s).map Prod.fst = specCategoryKeys s := by
  intro s h
  unfold aggregateByCategory specCategoryKeys
  rw [if_neg (by simp [h])]
  rw [filterMap_if_map_fst]
  have hc : ∀ p ∈ catPairs,
      (isTableName p.1 && !(s.getTable p.1).isEmpty) = !(s.getTable p.1).isEmpty := by
    intro p hp
    fin_cases hp <;> simp [isTableName]
  rw [List.filter_congr hc]

/-- C5 amended, witnessed at a well-typed store with one book review: the
key list is exactly `["Books"]`. -/
theorem c5_aggregation_amended_witness :
    (aggregateByCategory w5store).map Prod.fst = specCategoryKeys w5store :=
  c5_aggregation_amended w5store (by decide)

theorem headNotWs_dropWhile (l : List Char) : headNotWs (l.dropWhile isPyWs) = true := by
  induction l with
  | nil => rfl
  | cons c t ih =>
    rw [List.dropWhile_cons]
    by_cases h : isPyWs c = true
    · rw [if_pos h]
      exact ih
    · rw [if_neg h]
      have h' : isPyWs c = false := Bool.eq_false_iff.mpr h
      simp [headNotWs, h']

theorem dropWhile_eq_self_ws {l : List Char} (h : headNotWs l = true) :
    l.dropWhile isPyWs = l := by
  cases l with
  | nil => rfl
  | cons c t =>
    rw [List.dropWhile_cons]
    have h' : isPyWs c = false := by simpa [headNotWs] using h
    rw [h']
    simp

theorem dropLead_headNotWs (l : List Char) : headNotWs (dropLead l) = true :=
  headNotWs_dropWhile l

theorem dropLead_eq_self {l : List Char} (h : headNotWs l = true) : dropLead l = l :=
  dropWhile_eq_self_ws h

theorem dropTrail_append (l : List Char) : ∃ u, dropTrail l ++ u = l := by
  refine ⟨(l.reverse.takeWhile isPyWs).reverse, ?_⟩
  rw [dropTrail, ← List.reverse_append, List.takeWhile_append_dropWhile]
  exact List.reverse_reverse l

theorem headNotWs_dropTrail {l : List Char} (h : headNotWs l = true) :
    headNotWs (dropTrail l) = true := by
  obtain ⟨u, hu⟩ := dropTrail_append l
  cases hdt : dropTrail l with
  | nil => rfl
  | cons c t =>
    rw [hdt] at hu
    rw [← hu] at h
    simpa [headNotWs] using h

theorem lastNotWs_dropTrail (l : List Char) : lastNotWs (dropTrail l) = true := by
  unfold lastNotWs dropTrail
  rw [List.reverse_reverse]
  exact headNotWs_dropWhile l.reverse

theorem dropTrail_eq_self {l : List Char} (h : lastNotWs l = true) : dropTrail l = l := by
  unfold lastNotWs at h
  unfold dropTrail
  rw [dropWhile_eq_self_ws h, List.reverse_reverse]

theorem headNotWs_stripChars (l : List Char) : headNotWs (stripChars l) = true :=
  headNotWs_dropTrail (dropLead_headNotWs l)

theorem lastNotWs_stripChars (l : List Char) : lastNotWs (stripChars l) = true :=
  lastNotWs_dropTrail (dropLead l)

theorem stripChars_eq_self {l : List Char} (h1 : headNotWs l = true)
    (h2 : lastNotWs l = true) : stripChars l = l := by
  unfold stripChars
  rw [dropLead_eq_self h1, dropTrail_eq_self h2]

theorem headNotWs_take (n : ℕ) {l : List Char} (h : headNotWs l = true) :
    headNotWs (l.take n) = true := by
  cases l with
  | nil => simp [headNotWs]
  | cons c t =>
    cases n with
    | zero => rfl
    | succ m => simpa [headNotWs] using h

theorem stripChars_idem (l : List Char) : stripChars (stripChars l) = stripChars l :=
  stripChars_eq_self (headNotWs_stripChars l) (lastNotWs_stripChars l)

theorem cleanText_shape (n : ℕ) (v : PyVal) :
    headNotWs (cleanText n v) = true ∧ (cleanText n v).length ≤ n := by
  cases v with
  | str s => exact ⟨headNotWs_take n (headNotWs_stripChars s), List.length_take_le _ _⟩
  | num q => exact ⟨rfl, Nat.zero_le n⟩
  | list l => exact ⟨rfl, Nat.zero_le n⟩
  | nullv => exact ⟨rfl, Nat.zero_le n⟩

theorem cleanText_idem (n : ℕ) (v : PyVal) (h : lastNotWs (cleanText n v) = true) :
    cleanText n (.str (cleanText n v)) = cleanText n v := by
  obtain ⟨h1, h2⟩ := cleanText_shape n v
  show (stripChars (cleanText n v)).take n = cleanText n v
  rw [stripChars_eq_self h1 h]
  exact List.take_of_length_le h2

theorem cleanId_strip {v : PyVal} {rid : List Char} {dflt : List Char}
    (hd : (stripChars dflt).isEmpty = false) (h : cleanId v dflt = some rid) :
    (stripChars rid).isEmpty = false := by
  cases v with
  | str s =>
    simp only [cleanId] at h
    injection h with h
    subst h
    split
    · rename_i hc
      simpa using hc
    · exact hd
  | num q =>
    simp only [cleanId] at h
    split at h
    · cases h
    · injection h with h
      subst h
      exact hd
  | list l =>
    simp only [cleanId] at h
    split at h
    · cases h
    · injection h with h
      subst h
      exact hd
  | nullv =>
    simp only [cleanId] at h
    injection h with h
    subst h
    exact hd

theorem cleanId_idem {rid : List Char} (dflt : List Char)
    (h : (stripChars rid).isEmpty = false) : cleanId (.str rid) dflt = some rid := by
  simp only [cleanId]
  rw [if_pos (by simp [h])]

theorem cleanAsin_truthy (v : PyVal) : pyTruthy (cleanAsin v) = true := by
  unfold cleanAsin
  by_cases h : pyTruthy v = true
  · rw [if_pos h]
    exact h
  · rw [if_neg h]
    decide

theorem cleanAsin_idem (v : PyVal) : cleanAsin (cleanAsin v) = cleanAsin v := by
  show (if pyTruthy (cleanAsin v) then cleanAsin v else .str "UNKNOWN".data) = cleanAsin v
  rw [if_pos (cleanAsin_truthy v)]

theorem cleanHelpful_length (v : PyVal) : (cleanHelpful v).length = 2 := by
  cases v with
  | list l =>
    simp only [cleanHelpful]
    split
    · rename_i hl
      rw [List.length_take]
      omega
    · rfl
  | str s => rfl
  | num q => rfl
  | nullv => rfl

theorem cleanHelpful_idem (v : PyVal) :
    cleanHelpful (.list (cleanHelpful v)) = cleanHelpful v := by
  have h := cleanHelpful_length v
  show (if 2 ≤ (cleanHelpful v).length then (cleanHelpful v).take 2 else [.num 0, .num 0])
      = cleanHelpful v
  rw [h, if_pos (le_refl 2)]
  exact List.take_of_length_le (le_of_eq h)

theorem cleanOverall_idem {q : ℚ} (h1 : 1 ≤ q) (h2 : q ≤ 5) : cleanOverall (.num q) = q := by
  unfold cleanOverall floatOf
  dsimp only
  rw [if_pos ⟨h1, h2⟩]

theorem cleanUnix_idem (i : Int) : cleanUnix (.num (mkRat i 1)) = i := by
  unfold cleanUnix intOf
  dsimp only
  rw [Rat.mkRat_one, Rat.num_intCast, Rat.den_intCast]
  simp [Int.tdiv_one]

theorem cleanTime_idem (v : PyVal) : cleanTime (.str (cleanTime v)) = cleanTime v := by
  cases v with
  | str s => exact stripChars_idem s
  | num q => rfl
  | list l => rfl
  | nullv => rfl

set_option maxRecDepth 8000 in
/-- C8 counterexample: cleaning `cex8rec` truncates its 201-character
stripped summary to 200 characters ending in a space, and cleaning that
output again strips the exposed space, so `clean(clean(r)) ≠ clean(r)`. -/
theorem c8_idempotence_counterexample :
    (cleanReviewData cex8rec).bind (fun d => cleanReviewData (toRaw d))
      ≠ cleanReviewData cex8rec := by decide

/-- C8 amended: normalization is idempotent on every record it cleans
without exception whose cleaned review text and summary do not end in
whitespace — in particular whenever the stripped texts fit within the
1000/200-character truncation limits; truncation exactly at a limit can
leave a trailing space that only the second pass strips. -/
theorem c8_idempotence_amended :
    ∀ (r : Record) (d : CleanedReview), cleanReviewData r = some d →
      lastNotWs d.reviewText = true → lastNotWs d.summary = true →
      cleanReviewData (toRaw d) = some d := by
  intro r d h hrt hsm
  obtain ⟨rid, name, hrid, hname, hd⟩ := cleanReviewData_some_iff.mp h
  subst hd
  dsimp only at hrt hsm
  have hridS : (stripChars rid).isEmpty = false := cleanId_strip (by decide) hrid
  have hnameS : (stripChars name).isEmpty = false := cleanId_strip (by decide) hname
  have hov := cleanOverall_range (recGetD r "overall" (.num 3))
  refine cleanReviewData_some_iff.mpr ⟨rid, name, ?_, ?_, ?_⟩
  · show cleanId (.str rid) "UNKNOWN".data = some rid
    exact cleanId_idem _ hridS
  · show cleanId (.str name) "Anonymous".data = some name
    exact cleanId_idem _ hnameS
  · simp only [CleanedReview.mk.injEq, true_and, and_true]
    refine ⟨?_, ?_, ?_, ?_, ?_, ?_, ?_⟩
    · exact (cleanAsin_idem (recGetD r "asin" (.str "UNKNOWN".data))).symm
    · exact (cleanHelpful_idem (recGetD r "helpful" (.list [.num 0, .num 0]))).symm
    · exact (cleanText_idem 1000 (recGetD r "reviewText" (.str [])) hrt).symm
    · exact (cleanOverall_idem hov.1 hov.2).symm
    · exact (cleanText_idem 200 (recGetD r "summary" (.str [])) hsm).symm
    · exact (cleanUnix_idem (cleanUnix (recGetD r "unixReviewTime" (.num 0)))).symm
    · exact (cleanTime_idem (recGetD r "reviewTime" (.str []))).symm

/-- C8 amended, witnessed at a record whose cleaned text fields are short
and end in non-whitespace: a second cleaning pass reproduces the document
exactly. -/
theorem c8_idempotence_amended_witness :
    cleanReviewData (toRaw w1doc) = some w1doc :=
  c8_idempotence_amended w1rec w1doc (by decide) (by decide) (by decide)
